import Mathlib

/-!
Verification of the living-room basketball scoreboard.

Part 1 embeds the client scoring state machine from `src/useGameState.js`:
the React hook's `useState` cells become fields of a `GameState` record and
each action (a `useCallback` in the source) becomes a pure function
`GameState → GameState`.  JavaScript numbers holding integer values are
modelled as `Int`; `Math.floor(x / 10)` on integers is `Int.fdiv x 10`.

Part 2 embeds the server reconciliation handler (`POST /api/recalculate`,
a Netlify function): the drizzle row types become records and the handler's
in-memory computation becomes a pure function of the session, its games and
their (sequence-ordered) event lists, with the single `Date.now()` read
passed in as an explicit `now` parameter.
-/

set_option linter.unusedVariables false
set_option linter.unnecessarySeqFocus false
set_option linter.unnecessarySimpa false

namespace Scoreboard

/-- `'multiplier'` / `'point'` mode strings of the client. -/
inductive Mode where
  | multiplier
  | point
deriving DecidableEq, Repr

/-- The constants at the top of `useGameState.js`. -/
def INITIAL_MISSES : Int := 3

def SESSION_DURATION : Int := 10 * 60

def FREEBIES_AFTER_TEN : Int := 3

def MULTIPLIER_SHOTS : Int := 5

/-- One undo-history entry: exactly the fields captured by `saveToHistory`. -/
structure Snapshot where
  mode : Mode
  score : Int
  multiplier : Int
  multiplierShotsRemaining : Int
  misses : Int
  freebiesRemaining : Int
  canEnterMultiplierMode : Bool
  lastTenThreshold : Int
  sessionHighScore : Int
deriving DecidableEq, Repr

/-- The state cells of the `useGameState` hook. -/
structure GameState where
  sessionActive : Bool
  timeRemaining : Int
  sessionHighScore : Int
  paused : Bool
  sessionEndedByTimer : Bool
  finalShotAvailable : Bool
  finalShotUsed : Bool
  gameActive : Bool
  mode : Mode
  score : Int
  multiplier : Int
  multiplierShotsRemaining : Int
  misses : Int
  freebiesRemaining : Int
  canEnterMultiplierMode : Bool
  lastTenThreshold : Int
  history : List Snapshot
  canUndo : Bool
deriving DecidableEq, Repr

/-- The initial values of all `useState` cells. -/
def initialState : GameState where
  sessionActive := false
  timeRemaining := SESSION_DURATION
  sessionHighScore := 0
  paused := false
  sessionEndedByTimer := false
  finalShotAvailable := false
  finalShotUsed := false
  gameActive := false
  mode := Mode.multiplier
  score := 0
  multiplier := 1
  multiplierShotsRemaining := 0
  misses := INITIAL_MISSES
  freebiesRemaining := 0
  canEnterMultiplierMode := true
  lastTenThreshold := 0
  history := []
  canUndo := false

/-- The snapshot object built inside `saveToHistory`. -/
def snapshotOf (s : GameState) : Snapshot where
  mode := s.mode
  score := s.score
  multiplier := s.multiplier
  multiplierShotsRemaining := s.multiplierShotsRemaining
  misses := s.misses
  freebiesRemaining := s.freebiesRemaining
  canEnterMultiplierMode := s.canEnterMultiplierMode
  lastTenThreshold := s.lastTenThreshold
  sessionHighScore := s.sessionHighScore

/-- `saveToHistory`: `setHistory(prev => [...prev.slice(-19), snapshot])` and
`setCanUndo(true)`.  `prev.slice(-19)` keeps the last (at most) 19 entries,
i.e. drops `length − 19` from the front. -/
def saveToHistory (s : GameState) : GameState :=
  { s with
    history := s.history.drop (s.history.length - 19) ++ [snapshotOf s]
    canUndo := true }

/-- `undo`: returns `(new state, returned boolean)`.  A no-op returning
`false` when the history is empty or no game is active; otherwise pops the
last snapshot and restores every captured field. -/
def undo (s : GameState) : GameState × Bool :=
  if s.history.length = 0 ∨ s.gameActive = false then (s, false)
  else
    match s.history.getLast? with
    | none => (s, false)
    | some prevState =>
      ({ s with
          history := s.history.dropLast
          mode := prevState.mode
          score := prevState.score
          multiplier := prevState.multiplier
          multiplierShotsRemaining := prevState.multiplierShotsRemaining
          misses := prevState.misses
          freebiesRemaining := prevState.freebiesRemaining
          canEnterMultiplierMode := prevState.canEnterMultiplierMode
          lastTenThreshold := prevState.lastTenThreshold
          sessionHighScore := prevState.sessionHighScore
          canUndo := decide (1 < s.history.length) }, true)

/-- `clearHistory`. -/
def clearHistory (s : GameState) : GameState :=
  { s with history := [], canUndo := false }

/-- `startNewGame`. -/
def startNewGame (s : GameState) : GameState :=
  { clearHistory s with
    gameActive := true
    mode := Mode.multiplier
    score := 0
    multiplier := 1
    multiplierShotsRemaining := 0
    misses := INITIAL_MISSES
    freebiesRemaining := 0
    canEnterMultiplierMode := true
    lastTenThreshold := 0 }

/-- `startSession`: resets the session cells and triggers `startNewGame`. -/
def startSession (s : GameState) : GameState :=
  startNewGame
    { s with
      sessionActive := true
      timeRemaining := SESSION_DURATION
      sessionHighScore := 0
      sessionEndedByTimer := false
      finalShotAvailable := false
      finalShotUsed := false }

/-- `endGame`: folds the current score into the session high score and marks
the game inactive. -/
def endGame (s : GameState) : GameState :=
  { s with
    sessionHighScore := max s.sessionHighScore s.score
    gameActive := false }

/-- `endSession`. -/
def endSession (s : GameState) : GameState :=
  { s with
    sessionHighScore := max s.sessionHighScore s.score
    sessionActive := false
    gameActive := false
    paused := false }

/-- The timer effect's expiry branch (`timeRemaining === 0 && sessionActive`):
opens the final-shot window and ends the session. -/
def sessionTimerExpire (s : GameState) : GameState :=
  if s.timeRemaining = 0 ∧ s.sessionActive = true then
    endSession
      { s with
        sessionEndedByTimer := true
        finalShotAvailable := true
        finalShotUsed := false }
  else s

/-- `calculateMissesGained`: `Math.floor(newScore/10) − Math.floor(prevScore/10)`. -/
def calculateMissesGained (prevScore newScore : Int) : Int :=
  newScore.fdiv 10 - prevScore.fdiv 10

/-- `makeShot`.  No-op without an active game.  Multiplier mode bumps the
multiplier; point mode scores `multiplierShotsRemaining > 0 ? multiplier : 1`
points, consumes a multiplier shot (resetting the multiplier when they run
out), grants lives/freebies on a crossed ten and updates the high score. -/
def makeShot (s : GameState) : GameState :=
  if s.gameActive = false then s
  else
    let s1 : GameState := saveToHistory s
    match s1.mode with
    | Mode.multiplier => { s1 with multiplier := s1.multiplier + 1 }
    | Mode.point =>
      let prevScore := s1.score
      let pointsToAdd := if 0 < s1.multiplierShotsRemaining then s1.multiplier else 1
      let newScore := prevScore + pointsToAdd
      let s2 : GameState := { s1 with score := newScore }
      let s3 : GameState :=
        if 0 < s2.multiplierShotsRemaining then
          if s2.multiplierShotsRemaining - 1 ≤ 0 then
            { s2 with
              multiplierShotsRemaining := s2.multiplierShotsRemaining - 1
              multiplier := 1 }
          else { s2 with multiplierShotsRemaining := s2.multiplierShotsRemaining - 1 }
        else s2
      let missesGained := calculateMissesGained prevScore newScore
      let s4 : GameState :=
        if 0 < missesGained then
          { s3 with
            misses := s3.misses + missesGained
            freebiesRemaining := FREEBIES_AFTER_TEN
            canEnterMultiplierMode := true
            lastTenThreshold := newScore.fdiv 10 * 10 }
        else { s3 with freebiesRemaining := 0, canEnterMultiplierMode := false }
      { s4 with sessionHighScore := max s4.sessionHighScore newScore }

/-- `missShot`.  No-op without an active game.  Multiplier mode spends a
miss (ending the game at zero); point mode first consumes a multiplier shot
if any, then either consumes a freebie or spends a miss. -/
def missShot (s : GameState) : GameState :=
  if s.gameActive = false then s
  else
    let s1 : GameState := saveToHistory s
    match s1.mode with
    | Mode.multiplier =>
      let s2 : GameState := { s1 with misses := s1.misses - 1 }
      if s2.misses ≤ 0 then endGame s2 else s2
    | Mode.point =>
      let s2 : GameState :=
        if 0 < s1.multiplierShotsRemaining then
          if s1.multiplierShotsRemaining - 1 ≤ 0 then
            { s1 with
              multiplierShotsRemaining := s1.multiplierShotsRemaining - 1
              multiplier := 1 }
          else { s1 with multiplierShotsRemaining := s1.multiplierShotsRemaining - 1 }
        else s1
      if 0 < s2.freebiesRemaining then
        { s2 with
          freebiesRemaining := s2.freebiesRemaining - 1
          canEnterMultiplierMode := false }
      else
        let s3 : GameState := { s2 with misses := s2.misses - 1 }
        if s3.misses ≤ 0 then endGame s3 else s3

/-- `enterPointMode`: guarded only by `mode !== 'multiplier'` (there is no
active-game check in the source). -/
def enterPointMode (s : GameState) : GameState :=
  if s.mode ≠ Mode.multiplier then s
  else
    let s1 : GameState := saveToHistory s
    let s2 : GameState := { s1 with mode := Mode.point }
    let s3 : GameState :=
      if 1 < s2.multiplier then { s2 with multiplierShotsRemaining := MULTIPLIER_SHOTS }
      else s2
    { s3 with canEnterMultiplierMode := false, freebiesRemaining := FREEBIES_AFTER_TEN }

/-- `enterMultiplierMode`: guarded by `!canEnterMultiplierMode || mode !== 'point'`. -/
def enterMultiplierMode (s : GameState) : GameState :=
  if s.canEnterMultiplierMode = false ∨ s.mode ≠ Mode.point then s
  else
    let s1 : GameState := saveToHistory s
    { s1 with mode := Mode.multiplier, multiplier := 1, freebiesRemaining := 0 }

/-- `continueInPointMode`: same guard as `enterMultiplierMode`; only clears
`canEnterMultiplierMode` and, notably, does NOT call `saveToHistory`. -/
def continueInPointMode (s : GameState) : GameState :=
  if s.canEnterMultiplierMode = false ∨ s.mode ≠ Mode.point then s
  else { s with canEnterMultiplierMode := false }

/-- `addFinalMake`: guarded by the final-shot window flags; adds the
point-mode points and updates the high score, but touches no other scoring
field. -/
def addFinalMake (s : GameState) : GameState :=
  if s.finalShotAvailable = false ∨ s.finalShotUsed = true then s
  else
    let pointsToAdd := if 0 < s.multiplierShotsRemaining then s.multiplier else 1
    let newScore := s.score + pointsToAdd
    { s with
      score := newScore
      sessionHighScore := max s.sessionHighScore newScore
      finalShotUsed := true
      finalShotAvailable := false }

/-- `addFinalMiss`: guarded by the final-shot window flags; only marks the
final shot used. -/
def addFinalMiss (s : GameState) : GameState :=
  if s.finalShotAvailable = false ∨ s.finalShotUsed = true then s
  else { s with finalShotUsed := true, finalShotAvailable := false }

/-- The actions a client can fire at the hook after a session has started. -/
inductive Action where
  | makeShot
  | missShot
  | enterPointMode
  | enterMultiplierMode
  | continueInPointMode
  | undo
  | startNewGame
  | endGame
  | endSession
  | sessionTimerExpire
  | addFinalMake
  | addFinalMiss
deriving DecidableEq, Repr

/-- Apply one action to the state (`undo` keeps only the state component). -/
def applyAction : Action → GameState → GameState
  | Action.makeShot, s => makeShot s
  | Action.missShot, s => missShot s
  | Action.enterPointMode, s => enterPointMode s
  | Action.enterMultiplierMode, s => enterMultiplierMode s
  | Action.continueInPointMode, s => continueInPointMode s
  | Action.undo, s => (undo s).1
  | Action.startNewGame, s => startNewGame s
  | Action.endGame, s => endGame s
  | Action.endSession, s => endSession s
  | Action.sessionTimerExpire, s => sessionTimerExpire s
  | Action.addFinalMake, s => addFinalMake s
  | Action.addFinalMiss, s => addFinalMiss s

/-- States reachable from a fresh session (`StartSession` immediately
triggers `StartGame`) by any sequence of actions. -/
inductive Reachable : GameState → Prop where
  | start : Reachable (startSession initialState)
  | step {s : GameState} (a : Action) : Reachable s → Reachable (applyAction a s)

end Scoreboard

namespace Scoreboard

/-! ## Part 2: the reconciliation engine (`POST /api/recalculate`) -/

/-- `eventType` strings of the events table. -/
inductive EventType where
  | make
  | miss
  | mode_change
  | game_start
  | game_end
deriving DecidableEq, Repr

/-- `endReason` strings of the games table. -/
inductive EndReason where
  | out_of_misses
  | session_ended
  | manual_end
deriving DecidableEq, Repr

/-- One row of the events table (timestamps as epoch milliseconds). -/
structure EventRec where
  eventType : EventType
  score : Int
  multiplier : Int
  multiplierShotsRemaining : Int
  missesRemaining : Int
  freebiesRemaining : Int
  mode : Mode
  usedFreebie : Bool
  occurredAt : Int
  sequenceNumber : Int
deriving DecidableEq, Repr

/-- The event-table defaults, used only as a `getLastD` fallback under a
nonemptiness guard. -/
def defaultEvent : EventRec where
  eventType := EventType.make
  score := 0
  multiplier := 1
  multiplierShotsRemaining := 0
  missesRemaining := 3
  freebiesRemaining := 0
  mode := Mode.multiplier
  usedFreebie := false
  occurredAt := 0
  sequenceNumber := 0

/-- One row of the games table, carrying its (sequence-ordered) events as
fetched by the handler. -/
structure GameRec where
  id : Nat
  startedAt : Int
  endedAt : Option Int
  endReason : Option EndReason
  isActive : Bool
  currentScore : Int
  currentMultiplier : Int
  currentMultiplierShotsRemaining : Int
  currentMisses : Int
  currentFreebiesRemaining : Int
  currentMode : Mode
  finalScore : Int
  highMultiplier : Int
  totalMakes : Int
  totalMisses : Int
  durationSeconds : Option Int
  events : List EventRec
deriving DecidableEq, Repr

/-- One row of the sessions table. -/
structure SessionRec where
  durationSeconds : Int
  isPaused : Bool
  pausedAt : Option Int
  totalPausedMs : Int
  currentGameId : Option Nat
  totalGames : Int
  highScore : Int
  totalPoints : Int
  startedAt : Int
  endedAt : Option Int
deriving DecidableEq, Repr

/-- A session together with its games, ordered by `startedAt` as the
handler fetches them. -/
structure SessDB where
  session : SessionRec
  games : List GameRec
deriving DecidableEq, Repr

/-- `gameEvents[gameEvents.length - 1]` (under a nonemptiness guard). -/
def lastEvent (es : List EventRec) : EventRec :=
  es.getLastD defaultEvent

/-- `gameEvents.find(e => e.eventType === 'game_end')`. -/
def gameEndEvent (es : List EventRec) : Option EventRec :=
  es.find? (fun e => e.eventType = EventType.game_end)

/-- `lastEvent.missesRemaining <= 0 && lastEvent.eventType === 'miss' && !lastEvent.usedFreebie`. -/
def outOfMisses (es : List EventRec) : Bool :=
  decide ((lastEvent es).missesRemaining ≤ 0)
    && decide ((lastEvent es).eventType = EventType.miss)
    && !(lastEvent es).usedFreebie

/-- `hasGameEndEvent || hasEndReason || outOfMisses`. -/
def isGameEnded (g : GameRec) : Bool :=
  (gameEndEvent g.events).isSome || g.endReason.isSome || outOfMisses g.events

/-- The handler's local `endedAt` for one game: set only when the game is
ended; the `game_end` event's timestamp if present, else the last event's. -/
def computedEndedAt (g : GameRec) : Option Int :=
  if isGameEnded g then
    match gameEndEvent g.events with
    | some e => some e.occurredAt
    | none => some (lastEvent g.events).occurredAt
  else none

/-- The handler's local `durationSeconds`: floor of the end-to-start span. -/
def computedDuration (g : GameRec) : Option Int :=
  (computedEndedAt g).map (fun endMs => (endMs - g.startedAt).fdiv 1000)

/-- The handler's local `endReason`: keep a pre-existing reason, otherwise
derive one when the game is ended. -/
def newEndReason (g : GameRec) : Option EndReason :=
  match g.endReason with
  | some r => some r
  | none =>
    if isGameEnded g then
      if outOfMisses g.events then some EndReason.out_of_misses
      else if (gameEndEvent g.events).isSome then some EndReason.session_ended
      else none
    else none

/-- `Math.max(...gameEvents.map(e => e.multiplier))` over a nonempty list. -/
def highMultiplierOf (es : List EventRec) : Int :=
  match es with
  | [] => 1
  | e :: rest => rest.foldl (fun acc x => max acc x.multiplier) e.multiplier

/-- `gameEvents.filter(e => e.eventType === 'make').length`. -/
def totalMakesOf (es : List EventRec) : Int :=
  ((es.filter (fun e => e.eventType = EventType.make)).length : Int)

/-- `gameEvents.filter(e => e.eventType === 'miss').length`. -/
def totalMissesOf (es : List EventRec) : Int :=
  ((es.filter (fun e => e.eventType = EventType.miss)).length : Int)

/-- The per-game `updates` object applied to a game row: recomputed
aggregates, current-state sync from the last event, and the conditionally
written `endedAt` / `durationSeconds` / `endReason` fields (the untouched
row value is kept when the handler does not write them). -/
def applyGameUpdates (g : GameRec) : GameRec :=
  { g with
    finalScore := (lastEvent g.events).score
    highMultiplier := highMultiplierOf g.events
    totalMakes := totalMakesOf g.events
    totalMisses := totalMissesOf g.events
    isActive := !isGameEnded g
    currentScore := (lastEvent g.events).score
    currentMultiplier := (lastEvent g.events).multiplier
    currentMultiplierShotsRemaining := (lastEvent g.events).multiplierShotsRemaining
    currentMisses := (lastEvent g.events).missesRemaining
    currentFreebiesRemaining := (lastEvent g.events).freebiesRemaining
    currentMode := (lastEvent g.events).mode
    endedAt :=
      match computedEndedAt g with
      | some v => some v
      | none => g.endedAt
    durationSeconds :=
      match computedDuration g with
      | some v => some v
      | none => g.durationSeconds
    endReason :=
      match newEndReason g with
      | some r => some r
      | none => g.endReason }

/-- The games the per-game loop actually processes: those with at least one
event (zero-event games are skipped and not counted). -/
def processedGames (l : List GameRec) : List GameRec :=
  l.filter (fun g => !g.events.isEmpty)

/-- `sessionTotalGames`: count of processed games. -/
def sessionTotalGames (l : List GameRec) : Int :=
  ((processedGames l).length : Int)

/-- `sessionTotalPoints`: sum of the recomputed final scores. -/
def sessionTotalPoints (l : List GameRec) : Int :=
  (processedGames l).foldl (fun acc g => acc + (lastEvent g.events).score) 0

/-- `sessionHighScore`: running max of the recomputed final scores,
starting from 0. -/
def sessionHighScoreOf (l : List GameRec) : Int :=
  (processedGames l).foldl (fun acc g => max acc (lastEvent g.events).score) 0

/-- `[...gameUpdates].reverse().find(gu => gu.updates.isActive !== false)`'s
game id: the most recent processed game whose recomputed `isActive` is true. -/
def lastActiveId (l : List GameRec) : Option Nat :=
  ((processedGames l).reverse.find? (fun g => !isGameEnded g)).map (fun g => g.id)

/-- The session's new `currentGameId`: the last still-active processed game,
else the session's last game, else unchanged. -/
def newCurrentGameId (s : SessionRec) (l : List GameRec) : Option Nat :=
  match lastActiveId l with
  | some i => some i
  | none =>
    match l.getLast? with
    | some g => some g.id
    | none => s.currentGameId

/-- The timer-expiry check: `elapsedMs >= durationMs`, with `elapsedMs`
measured up to `pausedAt` when paused, else up to `now`. -/
def timerExpired (now : Int) (s : SessionRec) : Bool :=
  let upTo : Int :=
    match s.isPaused, s.pausedAt with
    | true, some p => p
    | _, _ => now
  decide (s.durationSeconds * 1000 ≤ upTo - s.startedAt - s.totalPausedMs)

/-- The paused-case back-fill value: the last processed game's written
`endedAt` when present, else the pause instant. -/
def pausedBackfill (l : List GameRec) (p : Int) : Int :=
  match (processedGames l).getLast? with
  | none => p
  | some g =>
    match computedEndedAt g with
    | some v => v
    | none => p

/-- The session's `endedAt` after reconciliation: back-filled only when it
was unset and the timer has expired; not paused uses
`startedAt + durationSeconds*1000 + totalPausedMs`. -/
def newEndedAt (now : Int) (s : SessionRec) (l : List GameRec) : Option Int :=
  match s.endedAt with
  | some v => some v
  | none =>
    if timerExpired now s then
      some (match s.isPaused, s.pausedAt with
            | true, some p => pausedBackfill l p
            | _, _ => s.startedAt + s.durationSeconds * 1000 + s.totalPausedMs)
    else none

/-- The per-game step of the handler's loop: zero-event games are left
untouched, all others get the recalculated updates. -/
def updateGame (g : GameRec) : GameRec :=
  if g.events.isEmpty then g else applyGameUpdates g

/-- The whole recalculate handler as a pure function of the database state
and the single `Date.now()` read. -/
def reconcile (now : Int) (db : SessDB) : SessDB where
  session :=
    { db.session with
      totalGames := sessionTotalGames db.games
      totalPoints := sessionTotalPoints db.games
      highScore := sessionHighScoreOf db.games
      endedAt := newEndedAt now db.session db.games
      currentGameId := newCurrentGameId db.session db.games }
  games := db.games.map updateGame

end Scoreboard

namespace Scoreboard

/-- Helper: an element `l.getLast?` yields is an element of `l`. -/
theorem mem_of_getLastEq {α : Type} {l : List α} {a : α} (h : l.getLast? = some a) : a ∈ l := by
  cases l with
  | nil => simp at h
  | cons x xs =>
    rw [List.getLast?_eq_getLast (x :: xs) (by simp), Option.some_inj] at h
    have hm := List.getLast_mem (l := x :: xs) (by simp)
    exact h ▸ hm

/-- `makeShot` without an active game is the identity. -/
theorem makeShot_inactive (s : GameState) (h : s.gameActive = false) : makeShot s = s := by
  unfold makeShot; rw [if_pos h]

/-- `missShot` without an active game is the identity. -/
theorem missShot_inactive (s : GameState) (h : s.gameActive = false) : missShot s = s := by
  unfold missShot; rw [if_pos h]

/-- Closed form of `makeShot` in multiplier mode with an active game. -/
theorem makeShot_mult_eq (s : GameState) (hg : s.gameActive = true)
    (hm : s.mode = Mode.multiplier) :
    makeShot s =
      { s with
        history := s.history.drop (s.history.length - 19) ++ [snapshotOf s]
        canUndo := true
        multiplier := s.multiplier + 1 } := by
  unfold makeShot
  rw [if_neg (by simp [hg])]
  simp only [saveToHistory, snapshotOf, hm]

/-- Closed form of `missShot` in multiplier mode with an active game. -/
theorem missShot_mult_eq (s : GameState) (hg : s.gameActive = true)
    (hm : s.mode = Mode.multiplier) :
    missShot s =
      { s with
        history := s.history.drop (s.history.length - 19) ++ [snapshotOf s]
        canUndo := true
        misses := s.misses - 1
        gameActive := if s.misses - 1 ≤ 0 then false else s.gameActive
        sessionHighScore :=
          if s.misses - 1 ≤ 0 then max s.sessionHighScore s.score
          else s.sessionHighScore } := by
  unfold missShot
  rw [if_neg (by simp [hg])]
  simp only [saveToHistory, snapshotOf, hm, endGame]
  split_ifs <;> rfl

/-- Closed form of `missShot` in point mode with an active game. -/
theorem missShot_point_eq (s : GameState) (hg : s.gameActive = true)
    (hm : s.mode = Mode.point) :
    missShot s =
      { s with
        history := s.history.drop (s.history.length - 19) ++ [snapshotOf s]
        canUndo := true
        multiplierShotsRemaining :=
          if 0 < s.multiplierShotsRemaining then s.multiplierShotsRemaining - 1
          else s.multiplierShotsRemaining
        multiplier :=
          if 0 < s.multiplierShotsRemaining then
            (if s.multiplierShotsRemaining - 1 ≤ 0 then 1 else s.multiplier)
          else s.multiplier
        freebiesRemaining :=
          if 0 < s.freebiesRemaining then s.freebiesRemaining - 1
          else s.freebiesRemaining
        canEnterMultiplierMode :=
          if 0 < s.freebiesRemaining then false else s.canEnterMultiplierMode
        misses := if 0 < s.freebiesRemaining then s.misses else s.misses - 1
        gameActive :=
          if 0 < s.freebiesRemaining then s.gameActive
          else (if s.misses - 1 ≤ 0 then false else s.gameActive)
        sessionHighScore :=
          if 0 < s.freebiesRemaining then s.sessionHighScore
          else (if s.misses - 1 ≤ 0 then max s.sessionHighScore s.score
                else s.sessionHighScore) } := by
  unfold missShot
  rw [if_neg (by simp [hg])]
  simp only [saveToHistory, snapshotOf, hm, endGame]
  split_ifs <;> rfl

/-- `enterPointMode` when not in multiplier mode is the identity. -/
theorem enterPointMode_noop (s : GameState) (h : s.mode ≠ Mode.multiplier) :
    enterPointMode s = s := by
  unfold enterPointMode; rw [if_pos h]

/-- Closed form of `enterPointMode` from multiplier mode (note: no
active-game guard in the source). -/
theorem enterPointMode_eq (s : GameState) (hm : s.mode = Mode.multiplier) :
    enterPointMode s =
      { s with
        history := s.history.drop (s.history.length - 19) ++ [snapshotOf s]
        canUndo := true
        mode := Mode.point
        multiplierShotsRemaining :=
          if 1 < s.multiplier then MULTIPLIER_SHOTS else s.multiplierShotsRemaining
        canEnterMultiplierMode := false
        freebiesRemaining := FREEBIES_AFTER_TEN } := by
  unfold enterPointMode
  rw [if_neg (by simp [hm])]
  simp only [saveToHistory, snapshotOf]
  split_ifs <;> rfl

/-- `enterMultiplierMode` when blocked is the identity. -/
theorem enterMultiplierMode_noop (s : GameState)
    (h : s.canEnterMultiplierMode = false ∨ s.mode ≠ Mode.point) :
    enterMultiplierMode s = s := by
  unfold enterMultiplierMode; rw [if_pos h]

/-- Closed form of `enterMultiplierMode` when allowed (note: no active-game
guard in the source). -/
theorem enterMultiplierMode_eq (s : GameState)
    (hc : s.canEnterMultiplierMode = true) (hm : s.mode = Mode.point) :
    enterMultiplierMode s =
      { s with
        history := s.history.drop (s.history.length - 19) ++ [snapshotOf s]
        canUndo := true
        mode := Mode.multiplier
        multiplier := 1
        freebiesRemaining := 0 } := by
  unfold enterMultiplierMode
  rw [if_neg (by simp [hc, hm])]
  simp only [saveToHistory, snapshotOf]

/-- `continueInPointMode` when blocked is the identity. -/
theorem continueInPointMode_noop (s : GameState)
    (h : s.canEnterMultiplierMode = false ∨ s.mode ≠ Mode.point) :
    continueInPointMode s = s := by
  unfold continueInPointMode; rw [if_pos h]

/-- Closed form of `continueInPointMode` when allowed: no history snapshot
is ever taken. -/
theorem continueInPointMode_eq (s : GameState)
    (hc : s.canEnterMultiplierMode = true) (hm : s.mode = Mode.point) :
    continueInPointMode s = { s with canEnterMultiplierMode := false } := by
  unfold continueInPointMode
  rw [if_neg (by simp [hc, hm])]

/-- `undo` when blocked: no state change, returns `false`. -/
theorem undo_noop (s : GameState)
    (h : s.history.length = 0 ∨ s.gameActive = false) : undo s = (s, false) := by
  unfold undo; rw [if_pos h]

/-- Closed form of `undo` with an active game and non-empty history. -/
theorem undo_eq (s : GameState) (hg : s.gameActive = true) {p : Snapshot}
    (hl : s.history.getLast? = some p) :
    undo s =
      ({ s with
          history := s.history.dropLast
          mode := p.mode
          score := p.score
          multiplier := p.multiplier
          multiplierShotsRemaining := p.multiplierShotsRemaining
          misses := p.misses
          freebiesRemaining := p.freebiesRemaining
          canEnterMultiplierMode := p.canEnterMultiplierMode
          lastTenThreshold := p.lastTenThreshold
          sessionHighScore := p.sessionHighScore
          canUndo := decide (1 < s.history.length) }, true) := by
  have hne : s.history ≠ [] := by
    intro h0; rw [h0] at hl; simp at hl
  unfold undo
  rw [if_neg (by simp [hg, List.length_eq_zero, hne]), hl]

/-- `addFinalMake` when the final-shot window is closed or used. -/
theorem addFinalMake_noop (s : GameState)
    (h : s.finalShotAvailable = false ∨ s.finalShotUsed = true) :
    addFinalMake s = s := by
  unfold addFinalMake; rw [if_pos h]

/-- Closed form of `addFinalMake` when the final shot is permitted. -/
theorem addFinalMake_eq (s : GameState)
    (ha : s.finalShotAvailable = true) (hu : s.finalShotUsed = false) :
    addFinalMake s =
      { s with
        score := s.score + (if 0 < s.multiplierShotsRemaining then s.multiplier else 1)
        sessionHighScore :=
          max s.sessionHighScore
            (s.score + (if 0 < s.multiplierShotsRemaining then s.multiplier else 1))
        finalShotUsed := true
        finalShotAvailable := false } := by
  unfold addFinalMake
  rw [if_neg (by simp [ha, hu])]

/-- `addFinalMiss` when the final-shot window is closed or used. -/
theorem addFinalMiss_noop (s : GameState)
    (h : s.finalShotAvailable = false ∨ s.finalShotUsed = true) :
    addFinalMiss s = s := by
  unfold addFinalMiss; rw [if_pos h]

/-- Closed form of `addFinalMiss` when the final shot is permitted. -/
theorem addFinalMiss_eq (s : GameState)
    (ha : s.finalShotAvailable = true) (hu : s.finalShotUsed = false) :
    addFinalMiss s = { s with finalShotUsed := true, finalShotAvailable := false } := by
  unfold addFinalMiss
  rw [if_neg (by simp [ha, hu])]

end Scoreboard

namespace Scoreboard

/-- Closed form of `makeShot` in point mode with an active game. -/
theorem makeShot_point_eq (s : GameState) (hg : s.gameActive = true)
    (hm : s.mode = Mode.point) :
    makeShot s =
      { s with
        history := s.history.drop (s.history.length - 19) ++ [snapshotOf s]
        canUndo := true
        score := s.score + (if 0 < s.multiplierShotsRemaining then s.multiplier else 1)
        multiplierShotsRemaining :=
          if 0 < s.multiplierShotsRemaining then s.multiplierShotsRemaining - 1
          else s.multiplierShotsRemaining
        multiplier :=
          if 0 < s.multiplierShotsRemaining then
            (if s.multiplierShotsRemaining - 1 ≤ 0 then 1 else s.multiplier)
          else s.multiplier
        misses :=
          if 0 < calculateMissesGained s.score
              (s.score + (if 0 < s.multiplierShotsRemaining then s.multiplier else 1)) then
            s.misses + calculateMissesGained s.score
              (s.score + (if 0 < s.multiplierShotsRemaining then s.multiplier else 1))
          else s.misses
        freebiesRemaining :=
          if 0 < calculateMissesGained s.score
              (s.score + (if 0 < s.multiplierShotsRemaining then s.multiplier else 1)) then
            FREEBIES_AFTER_TEN
          else 0
        canEnterMultiplierMode :=
          if 0 < calculateMissesGained s.score
              (s.score + (if 0 < s.multiplierShotsRemaining then s.multiplier else 1)) then
            true
          else false
        lastTenThreshold :=
          if 0 < calculateMissesGained s.score
              (s.score + (if 0 < s.multiplierShotsRemaining then s.multiplier else 1)) then
            (s.score + (if 0 < s.multiplierShotsRemaining then s.multiplier else 1)).fdiv 10 * 10
          else s.lastTenThreshold
        sessionHighScore :=
          max s.sessionHighScore
            (s.score + (if 0 < s.multiplierShotsRemaining then s.multiplier else 1)) } := by
  unfold makeShot
  rw [if_neg (by simp [hg])]
  simp only [saveToHistory, snapshotOf, hm]
  split_ifs <;> rfl

end Scoreboard

namespace Scoreboard

/-- The four numeric bounds of spec §8 on the live scoring fields. -/
def ScalarInv (s : GameState) : Prop :=
  0 ≤ s.misses ∧ 1 ≤ s.multiplier ∧ 0 ≤ s.freebiesRemaining ∧
    0 ≤ s.multiplierShotsRemaining

/-- The same bounds on a history snapshot. -/
def SnapshotInv (p : Snapshot) : Prop :=
  0 ≤ p.misses ∧ 1 ≤ p.multiplier ∧ 0 ≤ p.freebiesRemaining ∧
    0 ≤ p.multiplierShotsRemaining

/-- The inductive invariant: the numeric bounds, at least one life while a
game is active, and the same facts for every stored snapshot. -/
def Inv (s : GameState) : Prop :=
  ScalarInv s ∧
  (s.gameActive = true → 1 ≤ s.misses) ∧
  (∀ p ∈ s.history, SnapshotInv p) ∧
  (s.gameActive = true → ∀ p ∈ s.history, 1 ≤ p.misses)

/-- A property holding on a list and on a pushed element holds on the
trimmed-and-pushed list. -/
theorem forall_mem_push {P : Snapshot → Prop} {l : List Snapshot} {q : Snapshot} {k : Nat}
    (h : ∀ p ∈ l, P p) (hq : P q) : ∀ p ∈ l.drop k ++ [q], P p := by
  intro p hp
  rcases List.mem_append.1 hp with h1 | h1
  · exact h p (List.mem_of_mem_drop h1)
  · exact (List.mem_singleton.1 h1) ▸ hq

theorem inv_makeShot (s : GameState) (h : Inv s) : Inv (makeShot s) := by
  obtain ⟨⟨h1, h2, h3, h4⟩, h5, h6, h7⟩ := h
  cases hact : s.gameActive with
  | false => rw [makeShot_inactive s hact]; exact ⟨⟨h1, h2, h3, h4⟩, h5, h6, h7⟩
  | true =>
    have h5' := h5 hact
    have h7' := h7 hact
    have hsn : SnapshotInv (snapshotOf s) := ⟨h1, h2, h3, h4⟩
    have hsn1 : 1 ≤ (snapshotOf s).misses := h5'
    cases hmode : s.mode with
    | multiplier =>
      rw [makeShot_mult_eq s hact hmode]
      refine ⟨⟨?_, ?_, ?_, ?_⟩, fun _ => ?_, ?_, fun _ => ?_⟩
      · dsimp only; omega
      · dsimp only; omega
      · dsimp only; omega
      · dsimp only; omega
      · dsimp only; omega
      · exact forall_mem_push h6 hsn
      · exact forall_mem_push h7' hsn1
    | point =>
      rw [makeShot_point_eq s hact hmode]
      refine ⟨⟨?_, ?_, ?_, ?_⟩, fun _ => ?_, ?_, fun _ => ?_⟩
      · dsimp only; split_ifs <;> omega
      · dsimp only; split_ifs <;> omega
      · dsimp only; split_ifs <;> simp [FREEBIES_AFTER_TEN]
      · dsimp only; split_ifs <;> omega
      · dsimp only; split_ifs <;> omega
      · exact forall_mem_push h6 hsn
      · exact forall_mem_push h7' hsn1

theorem inv_missShot (s : GameState) (h : Inv s) : Inv (missShot s) := by
  obtain ⟨⟨h1, h2, h3, h4⟩, h5, h6, h7⟩ := h
  cases hact : s.gameActive with
  | false => rw [missShot_inactive s hact]; exact ⟨⟨h1, h2, h3, h4⟩, h5, h6, h7⟩
  | true =>
    have h5' := h5 hact
    have h7' := h7 hact
    have hsn : SnapshotInv (snapshotOf s) := ⟨h1, h2, h3, h4⟩
    have hsn1 : 1 ≤ (snapshotOf s).misses := h5'
    cases hmode : s.mode with
    | multiplier =>
      rw [missShot_mult_eq s hact hmode]
      refine ⟨⟨?_, ?_, ?_, ?_⟩, fun ha => ?_, ?_, fun ha => ?_⟩
      · dsimp only; omega
      · dsimp only; omega
      · dsimp only; omega
      · dsimp only; omega
      · dsimp only at ha ⊢
        split_ifs at ha ⊢ <;> omega
      · exact forall_mem_push h6 hsn
      · exact forall_mem_push h7' hsn1
    | point =>
      rw [missShot_point_eq s hact hmode]
      refine ⟨⟨?_, ?_, ?_, ?_⟩, fun ha => ?_, ?_, fun ha => ?_⟩
      · dsimp only; split_ifs <;> omega
      · dsimp only; split_ifs <;> omega
      · dsimp only; split_ifs <;> omega
      · dsimp only; split_ifs <;> omega
      · dsimp only at ha ⊢
        split_ifs at ha ⊢ <;> omega
      · exact forall_mem_push h6 hsn
      · exact forall_mem_push h7' hsn1

theorem inv_enterPointMode (s : GameState) (h : Inv s) : Inv (enterPointMode s) := by
  obtain ⟨⟨h1, h2, h3, h4⟩, h5, h6, h7⟩ := h
  by_cases hm : s.mode = Mode.multiplier
  · rw [enterPointMode_eq s hm]
    refine ⟨⟨?_, ?_, ?_, ?_⟩, fun ha => ?_, ?_, fun ha => ?_⟩
    · dsimp only; omega
    · dsimp only; omega
    · dsimp only [FREEBIES_AFTER_TEN]; omega
    · dsimp only [MULTIPLIER_SHOTS]; split_ifs <;> omega
    · exact h5 ha
    · exact forall_mem_push h6 ⟨h1, h2, h3, h4⟩
    · exact forall_mem_push (h7 ha) (h5 ha)
  · rw [enterPointMode_noop s hm]; exact ⟨⟨h1, h2, h3, h4⟩, h5, h6, h7⟩

theorem inv_enterMultiplierMode (s : GameState) (h : Inv s) : Inv (enterMultiplierMode s) := by
  obtain ⟨⟨h1, h2, h3, h4⟩, h5, h6, h7⟩ := h
  by_cases hc : s.canEnterMultiplierMode = true ∧ s.mode = Mode.point
  · rw [enterMultiplierMode_eq s hc.1 hc.2]
    refine ⟨⟨?_, ?_, ?_, ?_⟩, fun ha => ?_, ?_, fun ha => ?_⟩
    · dsimp only; omega
    · dsimp only; omega
    · dsimp only; omega
    · dsimp only; omega
    · exact h5 ha
    · exact forall_mem_push h6 ⟨h1, h2, h3, h4⟩
    · exact forall_mem_push (h7 ha) (h5 ha)
  · rw [enterMultiplierMode_noop s ?_]
    · exact ⟨⟨h1, h2, h3, h4⟩, h5, h6, h7⟩
    · rcases not_and_or.1 hc with h' | h'
      · exact Or.inl (by simpa using h')
      · exact Or.inr h'

theorem inv_continueInPointMode (s : GameState) (h : Inv s) : Inv (continueInPointMode s) := by
  obtain ⟨⟨h1, h2, h3, h4⟩, h5, h6, h7⟩ := h
  by_cases hc : s.canEnterMultiplierMode = true ∧ s.mode = Mode.point
  · rw [continueInPointMode_eq s hc.1 hc.2]
    exact ⟨⟨h1, h2, h3, h4⟩, h5, h6, h7⟩
  · rw [continueInPointMode_noop s ?_]
    · exact ⟨⟨h1, h2, h3, h4⟩, h5, h6, h7⟩
    · rcases not_and_or.1 hc with h' | h'
      · exact Or.inl (by simpa using h')
      · exact Or.inr h'

theorem inv_undo (s : GameState) (h : Inv s) : Inv (undo s).1 := by
  obtain ⟨⟨h1, h2, h3, h4⟩, h5, h6, h7⟩ := h
  by_cases hg : s.gameActive = true
  · cases hl : s.history.getLast? with
    | none =>
      have : s.history = [] := by
        cases hh : s.history with
        | nil => rfl
        | cons x xs => rw [hh] at hl; simp [List.getLast?_concat] at hl
      rw [undo_noop s (Or.inl (by simp [this]))]
      exact ⟨⟨h1, h2, h3, h4⟩, h5, h6, h7⟩
    | some p =>
      have hmem : p ∈ s.history := mem_of_getLastEq hl
      obtain ⟨p1, p2, p3, p4⟩ := h6 p hmem
      rw [undo_eq s hg hl]
      refine ⟨⟨p1, p2, p3, p4⟩, fun _ => h7 hg p hmem, ?_, fun _ => ?_⟩
      · intro q hq
        exact h6 q ((List.dropLast_sublist s.history).subset hq)
      · intro q hq
        exact h7 hg q ((List.dropLast_sublist s.history).subset hq)
  · rw [undo_noop s (Or.inr (by simpa using hg))]
    exact ⟨⟨h1, h2, h3, h4⟩, h5, h6, h7⟩

theorem inv_startNewGame (s : GameState) (h : Inv s) : Inv (startNewGame s) := by
  refine ⟨⟨?_, ?_, ?_, ?_⟩, fun _ => ?_, ?_, fun _ => ?_⟩ <;>
    simp [startNewGame, clearHistory, INITIAL_MISSES]

theorem inv_endGame (s : GameState) (h : Inv s) : Inv (endGame s) := by
  obtain ⟨⟨h1, h2, h3, h4⟩, h5, h6, h7⟩ := h
  exact ⟨⟨h1, h2, h3, h4⟩, by simp [endGame], h6, by simp [endGame]⟩

theorem inv_endSession (s : GameState) (h : Inv s) : Inv (endSession s) := by
  obtain ⟨⟨h1, h2, h3, h4⟩, h5, h6, h7⟩ := h
  exact ⟨⟨h1, h2, h3, h4⟩, by simp [endSession], h6, by simp [endSession]⟩

theorem inv_sessionTimerExpire (s : GameState) (h : Inv s) : Inv (sessionTimerExpire s) := by
  obtain ⟨⟨h1, h2, h3, h4⟩, h5, h6, h7⟩ := h
  unfold sessionTimerExpire
  split_ifs
  · exact ⟨⟨h1, h2, h3, h4⟩, by simp [endSession], h6, by simp [endSession]⟩
  · exact ⟨⟨h1, h2, h3, h4⟩, h5, h6, h7⟩

theorem inv_addFinalMake (s : GameState) (h : Inv s) : Inv (addFinalMake s) := by
  obtain ⟨⟨h1, h2, h3, h4⟩, h5, h6, h7⟩ := h
  unfold addFinalMake
  split_ifs <;> exact ⟨⟨h1, h2, h3, h4⟩, h5, h6, h7⟩

theorem inv_addFinalMiss (s : GameState) (h : Inv s) : Inv (addFinalMiss s) := by
  obtain ⟨⟨h1, h2, h3, h4⟩, h5, h6, h7⟩ := h
  unfold addFinalMiss
  split_ifs <;> exact ⟨⟨h1, h2, h3, h4⟩, h5, h6, h7⟩

/-- Every action preserves the invariant. -/
theorem inv_step (a : Action) (s : GameState) (h : Inv s) : Inv (applyAction a s) := by
  cases a with
  | makeShot => exact inv_makeShot s h
  | missShot => exact inv_missShot s h
  | enterPointMode => exact inv_enterPointMode s h
  | enterMultiplierMode => exact inv_enterMultiplierMode s h
  | continueInPointMode => exact inv_continueInPointMode s h
  | undo => exact inv_undo s h
  | startNewGame => exact inv_startNewGame s h
  | endGame => exact inv_endGame s h
  | endSession => exact inv_endSession s h
  | sessionTimerExpire => exact inv_sessionTimerExpire s h
  | addFinalMake => exact inv_addFinalMake s h
  | addFinalMiss => exact inv_addFinalMiss s h

/-- The invariant holds at the start of a session. -/
theorem inv_start : Inv (startSession initialState) := by
  refine ⟨⟨?_, ?_, ?_, ?_⟩, fun _ => ?_, ?_, fun _ => ?_⟩ <;>
    simp [startSession, startNewGame, clearHistory, initialState, INITIAL_MISSES]

/-- The invariant holds at every reachable state. -/
theorem reachable_inv {s : GameState} (h : Reachable s) : Inv s := by
  induction h with
  | start => exact inv_start
  | step a _ ih => exact inv_step a _ ih

end Scoreboard

namespace Scoreboard

/-- C1: in point mode with an active game, `MakeShot` adds
`multiplierShotsRemaining > 0 ? multiplier : 1` points, decrements a
positive `multiplierShotsRemaining` (resetting the multiplier to 1 when it
reaches 0), and on a crossed ten grants the tier difference in misses,
3 freebies and the multiplier-mode switch; otherwise it clears freebies and
the switch permission. -/
theorem makeShot_point_mode_spec (s : GameState)
    (hg : s.gameActive = true) (hm : s.mode = Mode.point) :
    (makeShot s).score =
      s.score + (if 0 < s.multiplierShotsRemaining then s.multiplier else 1) ∧
    (makeShot s).multiplierShotsRemaining =
      (if 0 < s.multiplierShotsRemaining then s.multiplierShotsRemaining - 1
       else s.multiplierShotsRemaining) ∧
    (makeShot s).multiplier =
      (if 0 < s.multiplierShotsRemaining ∧ s.multiplierShotsRemaining - 1 ≤ 0 then 1
       else s.multiplier) ∧
    (0 < calculateMissesGained s.score (makeShot s).score →
      (makeShot s).misses = s.misses + calculateMissesGained s.score (makeShot s).score ∧
      (makeShot s).freebiesRemaining = 3 ∧
      (makeShot s).canEnterMultiplierMode = true) ∧
    (calculateMissesGained s.score (makeShot s).score ≤ 0 →
      (makeShot s).misses = s.misses ∧
      (makeShot s).freebiesRemaining = 0 ∧
      (makeShot s).canEnterMultiplierMode = false) := by
  rw [makeShot_point_eq s hg hm]
  dsimp only
  refine ⟨rfl, rfl, ?_, fun hgain => ⟨?_, ?_, ?_⟩, fun hgain => ⟨?_, ?_, ?_⟩⟩ <;>
    split_ifs <;>
      first
        | rfl
        | omega
        | (simp_all [FREEBIES_AFTER_TEN]; try omega)

/-- Scenario B of the spec: point mode at score 9. -/
def scenarioB : GameState :=
  { initialState with gameActive := true, mode := Mode.point, score := 9 }

/-- C1 witness: the theorem applied at Scenario B. -/
theorem makeShot_point_mode_spec_witness :
    (makeShot scenarioB).score =
      scenarioB.score +
        (if 0 < scenarioB.multiplierShotsRemaining then scenarioB.multiplier else 1) ∧
    (makeShot scenarioB).misses =
      scenarioB.misses + calculateMissesGained scenarioB.score (makeShot scenarioB).score ∧
    (makeShot scenarioB).freebiesRemaining = 3 ∧
    (makeShot scenarioB).canEnterMultiplierMode = true :=
  ⟨(makeShot_point_mode_spec scenarioB (by decide) (by decide)).1,
    (makeShot_point_mode_spec scenarioB (by decide) (by decide)).2.2.2.1 (by decide)⟩

/-- C2: in point mode with an active game, `MissShot` consumes a positive
`multiplierShotsRemaining` (resetting the multiplier when it hits 0)
independently of the freebie outcome, then either consumes exactly one
freebie (misses unchanged, switch window forfeited, game still active) or
spends a miss, ending the game exactly when the miss count reaches 0. -/
theorem missShot_point_mode_spec (s : GameState) (hr : Reachable s)
    (hg : s.gameActive = true) (hm : s.mode = Mode.point) :
    (missShot s).multiplierShotsRemaining =
      (if 0 < s.multiplierShotsRemaining then s.multiplierShotsRemaining - 1
       else s.multiplierShotsRemaining) ∧
    (missShot s).multiplier =
      (if 0 < s.multiplierShotsRemaining ∧ s.multiplierShotsRemaining - 1 ≤ 0 then 1
       else s.multiplier) ∧
    (0 < s.freebiesRemaining →
      (missShot s).freebiesRemaining = s.freebiesRemaining - 1 ∧
      (missShot s).misses = s.misses ∧
      (missShot s).canEnterMultiplierMode = false ∧
      (missShot s).gameActive = true) ∧
    (s.freebiesRemaining ≤ 0 →
      (missShot s).misses = s.misses - 1 ∧
      ((missShot s).gameActive = false ↔ (missShot s).misses = 0)) := by
  obtain ⟨⟨h1, h2, h3, h4⟩, h5, h6, h7⟩ := reachable_inv hr
  have h5' := h5 hg
  rw [missShot_point_eq s hg hm]
  dsimp only
  refine ⟨?_, ?_, fun hf => ⟨?_, ?_, ?_, ?_⟩, fun hf => ⟨?_, ?_⟩⟩ <;>
    split_ifs <;>
      first
        | rfl
        | omega
        | (simp_all; try omega)

/-- A reachable point-mode state: a fresh game switched to point mode. -/
def pointEntryState : GameState :=
  applyAction Action.enterPointMode (startSession initialState)

/-- C2 witness: the theorem applied at the reachable point-mode state with
3 freebies (the freebie branch) — one freebie is consumed, no life lost. -/
theorem missShot_point_mode_spec_witness :
    (missShot pointEntryState).freebiesRemaining =
      pointEntryState.freebiesRemaining - 1 ∧
    (missShot pointEntryState).misses = pointEntryState.misses ∧
    (missShot pointEntryState).canEnterMultiplierMode = false ∧
    (missShot pointEntryState).gameActive = true :=
  (missShot_point_mode_spec pointEntryState
      (Reachable.step Action.enterPointMode Reachable.start)
      (by decide) (by decide)).2.2.1 (by decide)

/-- The snapshot-pushing actions of the claim that actually push. -/
inductive MutAction where
  | makeShot
  | missShot
  | enterPointMode
  | enterMultiplierMode
deriving DecidableEq, Repr

def applyMut : MutAction → GameState → GameState
  | MutAction.makeShot, s => makeShot s
  | MutAction.missShot, s => missShot s
  | MutAction.enterPointMode, s => enterPointMode s
  | MutAction.enterMultiplierMode, s => enterMultiplierMode s

/-- The source guard under which each action mutates the state. -/
def mutAllowed : MutAction → GameState → Prop
  | MutAction.makeShot, s => s.gameActive = true
  | MutAction.missShot, s => s.gameActive = true
  | MutAction.enterPointMode, s => s.mode = Mode.multiplier
  | MutAction.enterMultiplierMode, s =>
      s.canEnterMultiplierMode = true ∧ s.mode = Mode.point

/-- C3 (amended): `MakeShot`, `MissShot`, `EnterPointMode` and
`EnterMultiplierMode` (but not `ContinueInPointMode`) push a snapshot of
the pre-action state onto the capacity-20 history, and — provided the game
is still active afterwards — an immediate `Undo` restores every
`ScoringState` field plus the session high score pointwise. -/
theorem undo_reverts_one_action (a : MutAction) (s : GameState)
    (hg : s.gameActive = true) (ha : mutAllowed a s) :
    (applyMut a s).history =
      s.history.drop (s.history.length - 19) ++ [snapshotOf s] ∧
    (applyMut a s).history.length ≤ 20 ∧
    ((applyMut a s).gameActive = true →
      (undo (applyMut a s)).2 = true ∧
      (undo (applyMut a s)).1.mode = s.mode ∧
      (undo (applyMut a s)).1.score = s.score ∧
      (undo (applyMut a s)).1.multiplier = s.multiplier ∧
      (undo (applyMut a s)).1.multiplierShotsRemaining = s.multiplierShotsRemaining ∧
      (undo (applyMut a s)).1.misses = s.misses ∧
      (undo (applyMut a s)).1.freebiesRemaining = s.freebiesRemaining ∧
      (undo (applyMut a s)).1.canEnterMultiplierMode = s.canEnterMultiplierMode ∧
      (undo (applyMut a s)).1.lastTenThreshold = s.lastTenThreshold ∧
      (undo (applyMut a s)).1.sessionHighScore = s.sessionHighScore) := by
  have hpush : (applyMut a s).history =
      s.history.drop (s.history.length - 19) ++ [snapshotOf s] := by
    cases a with
    | makeShot =>
      cases hmode : s.mode with
      | multiplier => rw [applyMut, makeShot_mult_eq s hg hmode]
      | point => rw [applyMut, makeShot_point_eq s hg hmode]
    | missShot =>
      cases hmode : s.mode with
      | multiplier => rw [applyMut, missShot_mult_eq s hg hmode]
      | point => rw [applyMut, missShot_point_eq s hg hmode]
    | enterPointMode => rw [applyMut, enterPointMode_eq s ha]
    | enterMultiplierMode => rw [applyMut, enterMultiplierMode_eq s ha.1 ha.2]
  refine ⟨hpush, ?_, fun hact2 => ?_⟩
  · rw [hpush]
    simp only [List.length_append, List.length_drop, List.length_cons, List.length_nil]
    omega
  · have hl : (applyMut a s).history.getLast? = some (snapshotOf s) := by
      rw [hpush]; exact List.getLast?_concat _
    rw [undo_eq (applyMut a s) hact2 hl]
    exact ⟨rfl, rfl, rfl, rfl, rfl, rfl, rfl, rfl, rfl, rfl⟩

/-- C3 witness: the theorem applied to `MakeShot` at Scenario B. -/
theorem undo_reverts_one_action_witness :
    (applyMut MutAction.makeShot scenarioB).history =
      scenarioB.history.drop (scenarioB.history.length - 19) ++ [snapshotOf scenarioB] ∧
    (applyMut MutAction.makeShot scenarioB).history.length ≤ 20 ∧
    ((applyMut MutAction.makeShot scenarioB).gameActive = true →
      (undo (applyMut MutAction.makeShot scenarioB)).2 = true ∧
      (undo (applyMut MutAction.makeShot scenarioB)).1.mode = scenarioB.mode ∧
      (undo (applyMut MutAction.makeShot scenarioB)).1.score = scenarioB.score ∧
      (undo (applyMut MutAction.makeShot scenarioB)).1.multiplier = scenarioB.multiplier ∧
      (undo (applyMut MutAction.makeShot scenarioB)).1.multiplierShotsRemaining =
        scenarioB.multiplierShotsRemaining ∧
      (undo (applyMut MutAction.makeShot scenarioB)).1.misses = scenarioB.misses ∧
      (undo (applyMut MutAction.makeShot scenarioB)).1.freebiesRemaining =
        scenarioB.freebiesRemaining ∧
      (undo (applyMut MutAction.makeShot scenarioB)).1.canEnterMultiplierMode =
        scenarioB.canEnterMultiplierMode ∧
      (undo (applyMut MutAction.makeShot scenarioB)).1.lastTenThreshold =
        scenarioB.lastTenThreshold ∧
      (undo (applyMut MutAction.makeShot scenarioB)).1.sessionHighScore =
        scenarioB.sessionHighScore) :=
  undo_reverts_one_action MutAction.makeShot scenarioB (by decide) rfl

/-- A point-mode state with the switch window open and empty history. -/
def c3state : GameState :=
  { initialState with
    gameActive := true
    mode := Mode.point
    canEnterMultiplierMode := true }

/-- C3 counterexample: `ContinueInPointMode` pushes no snapshot, so an
immediate `Undo` fails and does not restore the prior state. -/
theorem continueInPointMode_not_snapshotted :
    c3state.gameActive = true ∧
    c3state.canEnterMultiplierMode = true ∧
    (continueInPointMode c3state).history = [] ∧
    (undo (continueInPointMode c3state)).2 = false ∧
    (undo (continueInPointMode c3state)).1.canEnterMultiplierMode = false := by
  decide

/-- C4: the spec §8 bounds hold after every action sequence from a fresh
game. -/
theorem reachable_scalar_bounds (s : GameState) (h : Reachable s) :
    0 ≤ s.misses ∧ 1 ≤ s.multiplier ∧ 0 ≤ s.freebiesRemaining ∧
      0 ≤ s.multiplierShotsRemaining :=
  (reachable_inv h).1

/-- C4 witness: the bounds at the freshly started session. -/
theorem reachable_scalar_bounds_witness :
    0 ≤ (startSession initialState).misses ∧
    1 ≤ (startSession initialState).multiplier ∧
    0 ≤ (startSession initialState).freebiesRemaining ∧
    0 ≤ (startSession initialState).multiplierShotsRemaining :=
  reachable_scalar_bounds (startSession initialState) Reachable.start

/-- C5 (amended): each guard implemented in the source makes the blocked
action a strict no-op — but `EnterPointMode` checks only the mode, not an
active game. -/
theorem disallowed_actions_noop (s : GameState) :
    (s.gameActive = false → makeShot s = s ∧ missShot s = s) ∧
    (s.mode ≠ Mode.multiplier → enterPointMode s = s) ∧
    (s.canEnterMultiplierMode = false ∨ s.mode ≠ Mode.point →
      enterMultiplierMode s = s ∧ continueInPointMode s = s) ∧
    (s.history = [] ∨ s.gameActive = false → undo s = (s, false)) ∧
    (s.finalShotAvailable = false ∨ s.finalShotUsed = true →
      addFinalMake s = s ∧ addFinalMiss s = s) := by
  refine ⟨fun h => ⟨makeShot_inactive s h, missShot_inactive s h⟩,
    fun h => enterPointMode_noop s h,
    fun h => ⟨enterMultiplierMode_noop s h, continueInPointMode_noop s h⟩,
    fun h => undo_noop s ?_,
    fun h => ⟨addFinalMake_noop s h, addFinalMiss_noop s h⟩⟩
  rcases h with h | h
  · exact Or.inl (by simp [h])
  · exact Or.inr h

/-- C5 witness: the no-op guards applied at the initial (no-game) state. -/
theorem disallowed_actions_noop_witness :
    (makeShot initialState = initialState ∧ missShot initialState = initialState) ∧
    undo initialState = (initialState, false) :=
  ⟨(disallowed_actions_noop initialState).1 (by decide),
    (disallowed_actions_noop initialState).2.2.2.1 (Or.inl (by decide))⟩

/-- C5 counterexample: with no active game but multiplier mode,
`EnterPointMode` is not a no-op — it switches the mode and grants
freebies. -/
theorem enterPointMode_mutates_without_active_game :
    initialState.gameActive = false ∧
    enterPointMode initialState ≠ initialState ∧
    (enterPointMode initialState).mode = Mode.point ∧
    (enterPointMode initialState).freebiesRemaining = 3 := by
  decide

/-- C9 (amended): `AddFinalMake`/`AddFinalMiss` act only while the
final-shot window is open and unused, and at most once in total;
`AddFinalMake` adds the point-mode points and updates the high score but
consumes no multiplier shot and grants no tier bonus; `AddFinalMiss`
changes no scoring field; neither reopens the ended game. -/
theorem addFinal_grace_window_spec (s : GameState) :
    (s.finalShotAvailable = false ∨ s.finalShotUsed = true →
      addFinalMake s = s ∧ addFinalMiss s = s) ∧
    (s.finalShotAvailable = true → s.finalShotUsed = false →
      (addFinalMake s).score =
        s.score + (if 0 < s.multiplierShotsRemaining then s.multiplier else 1) ∧
      (addFinalMake s).sessionHighScore =
        max s.sessionHighScore (addFinalMake s).score ∧
      (addFinalMake s).finalShotUsed = true ∧
      (addFinalMake s).finalShotAvailable = false ∧
      (addFinalMake s).gameActive = s.gameActive ∧
      (addFinalMake s).multiplierShotsRemaining = s.multiplierShotsRemaining ∧
      (addFinalMake s).multiplier = s.multiplier ∧
      (addFinalMake s).misses = s.misses ∧
      (addFinalMake s).freebiesRemaining = s.freebiesRemaining ∧
      (addFinalMake s).mode = s.mode ∧
      addFinalMiss s = { s with finalShotUsed := true, finalShotAvailable := false } ∧
      addFinalMake (addFinalMake s) = addFinalMake s ∧
      addFinalMiss (addFinalMake s) = addFinalMake s ∧
      addFinalMake (addFinalMiss s) = addFinalMiss s ∧
      addFinalMiss (addFinalMiss s) = addFinalMiss s) := by
  refine ⟨fun h => ⟨addFinalMake_noop s h, addFinalMiss_noop s h⟩, fun ha hu => ?_⟩
  rw [addFinalMake_eq s ha hu, addFinalMiss_eq s ha hu]
  refine ⟨rfl, rfl, rfl, rfl, rfl, rfl, rfl, rfl, rfl, rfl, rfl, ?_, ?_, ?_, ?_⟩
  · exact addFinalMake_noop _ (Or.inr rfl)
  · exact addFinalMiss_noop _ (Or.inr rfl)
  · exact addFinalMake_noop _ (Or.inr rfl)
  · exact addFinalMiss_noop _ (Or.inr rfl)

/-- A state inside the grace window holding leftover multiplier shots. -/
def c9state : GameState :=
  { initialState with
    gameActive := true
    mode := Mode.point
    finalShotAvailable := true
    finalShotUsed := false
    multiplierShotsRemaining := 2
    multiplier := 3
    score := 9 }

/-- C9 witness: the amended theorem applied inside the open grace window. -/
theorem addFinal_grace_window_spec_witness :
    (addFinalMake c9state).score =
      c9state.score +
        (if 0 < c9state.multiplierShotsRemaining then c9state.multiplier else 1) ∧
    (addFinalMake c9state).finalShotUsed = true ∧
    (addFinalMake c9state).multiplierShotsRemaining = c9state.multiplierShotsRemaining :=
  ⟨((addFinal_grace_window_spec c9state).2 (by decide) (by decide)).1,
    ((addFinal_grace_window_spec c9state).2 (by decide) (by decide)).2.2.1,
    ((addFinal_grace_window_spec c9state).2 (by decide) (by decide)).2.2.2.2.2.1⟩

/-- C9 counterexample: the final shot does NOT apply the full point-mode
arithmetic — unlike `MakeShot` it leaves the multiplier shots and the tier
bonus untouched, and `AddFinalMiss` consumes nothing. -/
theorem addFinal_differs_from_point_arithmetic :
    c9state.finalShotAvailable = true ∧
    c9state.finalShotUsed = false ∧
    (addFinalMake c9state).score = (makeShot c9state).score ∧
    (addFinalMake c9state).multiplierShotsRemaining ≠
      (makeShot c9state).multiplierShotsRemaining ∧
    (addFinalMake c9state).misses ≠ (makeShot c9state).misses ∧
    (addFinalMiss c9state).multiplierShotsRemaining ≠
      (missShot c9state).multiplierShotsRemaining ∧
    (addFinalMiss c9state).misses ≠ (missShot c9state).misses := by
  decide

/-- C10: `Undo` is a no-op returning `false` on empty history or without an
active game; since the game-ending miss deactivates the game within the
same action, that miss can never be undone although its snapshot was
pushed. -/
theorem undo_blocked_after_game_over (s : GameState) :
    ((s.history = [] ∨ s.gameActive = false) → undo s = (s, false)) ∧
    (s.gameActive = true → (missShot s).gameActive = false →
      (missShot s).history ≠ [] ∧ undo (missShot s) = (missShot s, false)) := by
  constructor
  · intro h
    refine undo_noop s ?_
    rcases h with h | h
    · exact Or.inl (by simp [h])
    · exact Or.inr h
  · intro hg hend
    have hpush : (missShot s).history =
        s.history.drop (s.history.length - 19) ++ [snapshotOf s] := by
      cases hmode : s.mode with
      | multiplier => rw [missShot_mult_eq s hg hmode]
      | point => rw [missShot_point_eq s hg hmode]
    constructor
    · rw [hpush]; simp
    · exact undo_noop (missShot s) (Or.inr hend)

/-- A one-life state about to lose its last miss. -/
def lastLifeState : GameState :=
  { initialState with
    gameActive := true
    mode := Mode.multiplier
    misses := 1 }

/-- C10 witness: the theorem applied at the empty initial state and at the
game-ending miss. -/
theorem undo_blocked_after_game_over_witness :
    undo initialState = (initialState, false) ∧
    ((missShot lastLifeState).history ≠ [] ∧
      undo (missShot lastLifeState) = (missShot lastLifeState, false)) :=
  ⟨(undo_blocked_after_game_over initialState).1 (Or.inl (by decide)),
    (undo_blocked_after_game_over lastLifeState).2 (by decide) (by decide)⟩

end Scoreboard

namespace Scoreboard

/-- `foldl max` dominates its seed. -/
theorem seed_le_foldl_max (l : List Int) (a : Int) : a ≤ l.foldl max a := by
  induction l generalizing a with
  | nil => exact le_refl a
  | cons x t ih => exact le_trans (le_max_left a x) (ih (max a x))

/-- `foldl max` dominates every element. -/
theorem mem_le_foldl_max (l : List Int) (a : Int) :
    ∀ x ∈ l, x ≤ l.foldl max a := by
  induction l generalizing a with
  | nil => intro x hx; simp at hx
  | cons y t ih =>
    intro x hx
    rcases List.mem_cons.1 hx with rfl | hx
    · exact le_trans (le_max_right a x) (seed_le_foldl_max t (max a x))
    · exact ih (max a y) x hx

/-- `foldl max` is attained at the seed or at some element. -/
theorem foldl_max_attained (l : List Int) (a : Int) :
    l.foldl max a = a ∨ ∃ x ∈ l, l.foldl max a = x := by
  induction l generalizing a with
  | nil => exact Or.inl rfl
  | cons y t ih =>
    rcases ih (max a y) with h | ⟨x, hx, hfx⟩
    · rcases max_cases a y with ⟨hm, _⟩ | ⟨hm, _⟩
      · exact Or.inl (by simpa [hm] using h)
      · exact Or.inr ⟨y, List.mem_cons_self y t, by simpa [hm] using h⟩
    · exact Or.inr ⟨x, List.mem_cons_of_mem y hx, hfx⟩

/-- The recomputed `highMultiplier` dominates every event's multiplier. -/
theorem le_highMultiplierOf (es : List EventRec) :
    ∀ x ∈ es, x.multiplier ≤ highMultiplierOf es := by
  intro x hx
  cases es with
  | nil => simp at hx
  | cons e t =>
    rcases List.mem_cons.1 hx with rfl | hx
    · simpa [highMultiplierOf, List.foldl_map] using
        seed_le_foldl_max (t.map (fun y => y.multiplier)) x.multiplier
    · simpa [highMultiplierOf, List.foldl_map] using
        mem_le_foldl_max (t.map (fun y => y.multiplier)) e.multiplier
          x.multiplier (List.mem_map_of_mem (fun y => y.multiplier) hx)

/-- The recomputed `highMultiplier` is some event's multiplier. -/
theorem highMultiplierOf_attained (es : List EventRec) (hne : es ≠ []) :
    ∃ x ∈ es, highMultiplierOf es = x.multiplier := by
  cases es with
  | nil => exact absurd rfl hne
  | cons e t =>
    have hfold : highMultiplierOf (e :: t) =
        (t.map (fun y => y.multiplier)).foldl max e.multiplier := by
      simp [highMultiplierOf, List.foldl_map]
    rcases foldl_max_attained (t.map (fun y => y.multiplier)) e.multiplier with h | ⟨v, hv, hfv⟩
    · exact ⟨e, List.mem_cons_self e t, by rw [hfold, h]⟩
    · rcases List.mem_map.1 hv with ⟨x, hx, rfl⟩
      exact ⟨x, List.mem_cons_of_mem e hx, by rw [hfold, hfv]⟩

/-- With a known last event, `lastEvent` is that event. -/
theorem lastEvent_eq {es : List EventRec} {e : EventRec}
    (h : es.getLast? = some e) : lastEvent es = e := by
  unfold lastEvent
  rw [List.getLastD_eq_getLast?, h]
  rfl

end Scoreboard

namespace Scoreboard

/-- C6: per-game reconciliation from a non-empty ordered event list:
`finalScore` is the last event's score, `highMultiplier` the maximum
multiplier over all events, `totalMakes`/`totalMisses` the make/miss
counts, the game is marked ended iff a `game_end` event exists or a
pre-existing `endReason` is set or the last event is an out-of-misses miss,
and in that last case an unset `endReason` becomes `out_of_misses`. -/
theorem recalculate_game_spec (g : GameRec) (e : EventRec)
    (hlast : g.events.getLast? = some e) :
    (applyGameUpdates g).finalScore = e.score ∧
    (∀ x ∈ g.events, x.multiplier ≤ (applyGameUpdates g).highMultiplier) ∧
    (∃ x ∈ g.events, (applyGameUpdates g).highMultiplier = x.multiplier) ∧
    (applyGameUpdates g).totalMakes =
      ((g.events.countP (fun x => x.eventType = EventType.make) : Nat) : Int) ∧
    (applyGameUpdates g).totalMisses =
      ((g.events.countP (fun x => x.eventType = EventType.miss) : Nat) : Int) ∧
    ((applyGameUpdates g).isActive = false ↔
      ((∃ x ∈ g.events, x.eventType = EventType.game_end) ∨
        g.endReason.isSome = true ∨
        (e.eventType = EventType.miss ∧ e.missesRemaining ≤ 0 ∧
          e.usedFreebie = false))) ∧
    ((e.eventType = EventType.miss ∧ e.missesRemaining ≤ 0 ∧ e.usedFreebie = false) →
      g.endReason = none →
      (applyGameUpdates g).endReason = some EndReason.out_of_misses) := by
  have hne : g.events ≠ [] := by
    intro h0; rw [h0] at hlast; simp at hlast
  have hlaste : lastEvent g.events = e := lastEvent_eq hlast
  refine ⟨?_, ?_, ?_, ?_, ?_, ?_, ?_⟩
  · show (lastEvent g.events).score = e.score
    rw [hlaste]
  · exact le_highMultiplierOf g.events
  · exact highMultiplierOf_attained g.events hne
  · show totalMakesOf g.events = _
    unfold totalMakesOf
    rw [List.countP_eq_length_filter]
  · show totalMissesOf g.events = _
    unfold totalMissesOf
    rw [List.countP_eq_length_filter]
  · show (!isGameEnded g) = false ↔ _
    rw [Bool.not_eq_false']
    unfold isGameEnded gameEndEvent outOfMisses
    rw [hlaste]
    simp only [Bool.or_eq_true, List.find?_isSome, decide_eq_true_eq,
      Bool.and_eq_true, Bool.not_eq_true']
    aesop
  · intro hoom hnone
    show (match newEndReason g with
          | some r => some r
          | none => g.endReason) = some EndReason.out_of_misses
    have : newEndReason g = some EndReason.out_of_misses := by
      unfold newEndReason
      rw [hnone]
      have hoomb : outOfMisses g.events = true := by
        unfold outOfMisses
        rw [hlaste]
        simp [hoom.1, hoom.2.1, hoom.2.2]
      have : isGameEnded g = true := by
        unfold isGameEnded
        rw [hoomb]
        simp
      simp [this, hoomb]
    rw [this]

/-- The Scenario D event log: `game_start` then three straight misses in
multiplier mode, no `game_end` event. -/
def evD0 : EventRec :=
  { defaultEvent with eventType := EventType.game_start, occurredAt := 1000 }

def evD1 : EventRec :=
  { defaultEvent with
    eventType := EventType.miss
    missesRemaining := 2
    occurredAt := 2000
    sequenceNumber := 1 }

def evD2 : EventRec :=
  { defaultEvent with
    eventType := EventType.miss
    missesRemaining := 1
    occurredAt := 3000
    sequenceNumber := 2 }

def evD3 : EventRec :=
  { defaultEvent with
    eventType := EventType.miss
    missesRemaining := 0
    occurredAt := 4000
    sequenceNumber := 3 }

/-- The Scenario D game row before reconciliation. -/
def gameD : GameRec where
  id := 1
  startedAt := 500
  endedAt := none
  endReason := none
  isActive := true
  currentScore := 0
  currentMultiplier := 1
  currentMultiplierShotsRemaining := 0
  currentMisses := 3
  currentFreebiesRemaining := 0
  currentMode := Mode.multiplier
  finalScore := 0
  highMultiplier := 1
  totalMakes := 0
  totalMisses := 0
  durationSeconds := none
  events := [evD0, evD1, evD2, evD3]

/-- C6 witness: at Scenario D the reconciled game is marked ended and gets
`endReason = out_of_misses` from the last event alone. -/
theorem recalculate_game_spec_witness :
    ((applyGameUpdates gameD).isActive = false ↔
      ((∃ x ∈ gameD.events, x.eventType = EventType.game_end) ∨
        gameD.endReason.isSome = true ∨
        (evD3.eventType = EventType.miss ∧ evD3.missesRemaining ≤ 0 ∧
          evD3.usedFreebie = false))) ∧
    (applyGameUpdates gameD).endReason = some EndReason.out_of_misses :=
  ⟨(recalculate_game_spec gameD evD3 (by decide)).2.2.2.2.2.1,
    (recalculate_game_spec gameD evD3 (by decide)).2.2.2.2.2.2
      (by decide) (by decide)⟩

end Scoreboard

namespace Scoreboard

/-! ### Idempotence of reconciliation (C7) -/

attribute [ext] GameRec
attribute [ext] SessionRec
attribute [ext] SessDB

theorem applyGameUpdates_events (g : GameRec) :
    (applyGameUpdates g).events = g.events := rfl

theorem applyGameUpdates_id (g : GameRec) : (applyGameUpdates g).id = g.id := rfl

theorem applyGameUpdates_startedAt (g : GameRec) :
    (applyGameUpdates g).startedAt = g.startedAt := rfl

theorem applyGameUpdates_endReason (g : GameRec) :
    (applyGameUpdates g).endReason = newEndReason g := by
  show (match newEndReason g with
        | some r => some r
        | none => g.endReason) = newEndReason g
  cases hn : newEndReason g with
  | some r => rfl
  | none =>
    unfold newEndReason at hn
    cases hr : g.endReason with
    | some r => rw [hr] at hn; simp at hn
    | none => simpa using hr

/-- An unset pre-existing `endReason` makes the derived reason track the
ended flag. -/
theorem newEndReason_isSome (g : GameRec) (h : g.endReason = none) :
    (newEndReason g).isSome = isGameEnded g := by
  unfold newEndReason isGameEnded
  rw [h]
  cases hb1 : (gameEndEvent g.events).isSome <;>
    cases hb2 : outOfMisses g.events <;>
      simp [hb1, hb2]

theorem isGameEnded_applyGameUpdates (g : GameRec) :
    isGameEnded (applyGameUpdates g) = isGameEnded g := by
  show ((gameEndEvent (applyGameUpdates g).events).isSome ||
      (applyGameUpdates g).endReason.isSome ||
      outOfMisses (applyGameUpdates g).events) = isGameEnded g
  rw [applyGameUpdates_events, applyGameUpdates_endReason]
  cases hr : g.endReason with
  | some r =>
    have hn : newEndReason g = some r := by unfold newEndReason; rw [hr]
    unfold isGameEnded
    rw [hr, hn]
  | none =>
    rw [Bool.or_comm ((gameEndEvent g.events).isSome), Bool.or_assoc]
    rw [newEndReason_isSome g hr]
    unfold isGameEnded
    rw [hr]
    cases hb1 : (gameEndEvent g.events).isSome <;>
      cases hb2 : outOfMisses g.events <;>
        simp [hb1, hb2]

theorem computedEndedAt_applyGameUpdates (g : GameRec) :
    computedEndedAt (applyGameUpdates g) = computedEndedAt g := by
  unfold computedEndedAt
  rw [isGameEnded_applyGameUpdates, applyGameUpdates_events]

theorem computedDuration_applyGameUpdates (g : GameRec) :
    computedDuration (applyGameUpdates g) = computedDuration g := by
  unfold computedDuration
  rw [computedEndedAt_applyGameUpdates, applyGameUpdates_startedAt]

theorem newEndReason_applyGameUpdates (g : GameRec) :
    newEndReason (applyGameUpdates g) = newEndReason g := by
  show (match (applyGameUpdates g).endReason with
        | some r => some r
        | none =>
          if isGameEnded (applyGameUpdates g) then
            if outOfMisses (applyGameUpdates g).events then some EndReason.out_of_misses
            else if (gameEndEvent (applyGameUpdates g).events).isSome then
              some EndReason.session_ended
            else none
          else none) = newEndReason g
  rw [applyGameUpdates_endReason, isGameEnded_applyGameUpdates, applyGameUpdates_events]
  cases hn : newEndReason g with
  | some r => rfl
  | none =>
    have hr : g.endReason = none := by
      unfold newEndReason at hn
      cases hr : g.endReason with
      | some r => rw [hr] at hn; simp at hn
      | none => rfl
    have hig : isGameEnded g = false := by
      have := newEndReason_isSome g hr
      rw [hn] at this
      simpa using this.symm
    rw [hig]
    simp

theorem applyGameUpdates_endedAt (g : GameRec) :
    (applyGameUpdates g).endedAt =
      (match computedEndedAt g with
       | some v => some v
       | none => g.endedAt) := rfl

theorem applyGameUpdates_durationSeconds (g : GameRec) :
    (applyGameUpdates g).durationSeconds =
      (match computedDuration g with
       | some v => some v
       | none => g.durationSeconds) := rfl

theorem applyGameUpdates_isActive (g : GameRec) :
    (applyGameUpdates g).isActive = !isGameEnded g := rfl

theorem applyGameUpdates_idem (g : GameRec) :
    applyGameUpdates (applyGameUpdates g) = applyGameUpdates g := by
  ext : 1
  case id => rfl
  case startedAt => rfl
  case endedAt =>
    rw [applyGameUpdates_endedAt (applyGameUpdates g), computedEndedAt_applyGameUpdates,
      applyGameUpdates_endedAt g]
    cases hc : computedEndedAt g <;> rfl
  case endReason =>
    rw [applyGameUpdates_endReason (applyGameUpdates g), newEndReason_applyGameUpdates,
      applyGameUpdates_endReason g]
  case isActive =>
    rw [applyGameUpdates_isActive (applyGameUpdates g), isGameEnded_applyGameUpdates,
      applyGameUpdates_isActive g]
  case currentScore => rfl
  case currentMultiplier => rfl
  case currentMultiplierShotsRemaining => rfl
  case currentMisses => rfl
  case currentFreebiesRemaining => rfl
  case currentMode => rfl
  case finalScore => rfl
  case highMultiplier => rfl
  case totalMakes => rfl
  case totalMisses => rfl
  case durationSeconds =>
    rw [applyGameUpdates_durationSeconds (applyGameUpdates g),
      computedDuration_applyGameUpdates, applyGameUpdates_durationSeconds g]
    cases hc : computedDuration g <;> rfl
  case events => rfl

end Scoreboard

namespace Scoreboard

theorem updateGame_eq_pos (g : GameRec) (h : g.events.isEmpty = true) :
    updateGame g = g := by
  unfold updateGame; rw [if_pos h]

theorem updateGame_eq_neg (g : GameRec) (h : ¬ g.events.isEmpty = true) :
    updateGame g = applyGameUpdates g := by
  unfold updateGame; rw [if_neg h]

theorem updateGame_events (g : GameRec) : (updateGame g).events = g.events := by
  by_cases h : g.events.isEmpty = true
  · rw [updateGame_eq_pos g h]
  · rw [updateGame_eq_neg g h, applyGameUpdates_events]

theorem updateGame_id (g : GameRec) : (updateGame g).id = g.id := by
  by_cases h : g.events.isEmpty = true
  · rw [updateGame_eq_pos g h]
  · rw [updateGame_eq_neg g h, applyGameUpdates_id]

theorem isGameEnded_updateGame (g : GameRec) :
    isGameEnded (updateGame g) = isGameEnded g := by
  by_cases h : g.events.isEmpty = true
  · rw [updateGame_eq_pos g h]
  · rw [updateGame_eq_neg g h, isGameEnded_applyGameUpdates]

theorem updateGame_idem (g : GameRec) :
    updateGame (updateGame g) = updateGame g := by
  by_cases h : g.events.isEmpty = true
  · rw [updateGame_eq_pos g h, updateGame_eq_pos g h]
  · rw [updateGame_eq_neg g h]
    have h2 : ¬ (applyGameUpdates g).events.isEmpty = true := by
      rw [applyGameUpdates_events]; exact h
    rw [updateGame_eq_neg (applyGameUpdates g) h2, applyGameUpdates_idem]

theorem processedGames_map_updateGame (l : List GameRec) :
    processedGames (l.map updateGame) = (processedGames l).map updateGame := by
  unfold processedGames
  induction l with
  | nil => rfl
  | cons g t ih =>
    simp only [List.map_cons, List.filter_cons, updateGame_events]
    cases hb : !g.events.isEmpty <;> simp [hb, ih]

theorem sessionTotalGames_map (l : List GameRec) :
    sessionTotalGames (l.map updateGame) = sessionTotalGames l := by
  unfold sessionTotalGames
  rw [processedGames_map_updateGame, List.length_map]

theorem sessionTotalPoints_map (l : List GameRec) :
    sessionTotalPoints (l.map updateGame) = sessionTotalPoints l := by
  unfold sessionTotalPoints
  rw [processedGames_map_updateGame, List.foldl_map]
  simp only [updateGame_events]

theorem sessionHighScoreOf_map (l : List GameRec) :
    sessionHighScoreOf (l.map updateGame) = sessionHighScoreOf l := by
  unfold sessionHighScoreOf
  rw [processedGames_map_updateGame, List.foldl_map]
  simp only [updateGame_events]

theorem lastActiveId_map (l : List GameRec) :
    lastActiveId (l.map updateGame) = lastActiveId l := by
  unfold lastActiveId
  rw [processedGames_map_updateGame, ← List.map_reverse, List.find?_map, Option.map_map]
  simp only [Function.comp_def, isGameEnded_updateGame, updateGame_id]

theorem newCurrentGameId_stable (s s' : SessionRec) (l : List GameRec)
    (h : s'.currentGameId = newCurrentGameId s l) :
    newCurrentGameId s' (l.map updateGame) = newCurrentGameId s l := by
  unfold newCurrentGameId at h ⊢
  rw [lastActiveId_map]
  cases ha : lastActiveId l with
  | some i => rfl
  | none =>
    rw [ha] at h
    cases hg : l.getLast? with
    | some g2 =>
      have hmap : (l.map updateGame).getLast? = some (updateGame g2) := by
        rw [List.getLast?_map, hg]; rfl
      rw [hmap]
      simp [updateGame_id]
    | none =>
      have hmap : (l.map updateGame).getLast? = none := by
        rw [List.getLast?_map, hg]; rfl
      rw [hmap]
      rw [hg] at h
      exact h

theorem newEndedAt_stable (now : Int) (s s' : SessionRec) (l l' : List GameRec)
    (h1 : s'.endedAt = newEndedAt now s l)
    (h2 : timerExpired now s' = timerExpired now s) :
    newEndedAt now s' l' = newEndedAt now s l := by
  unfold newEndedAt at h1 ⊢
  cases he : s.endedAt with
  | some v =>
    rw [h1, he]
  | none =>
    try rw [he] at h1
    try rw [he]
    dsimp only at h1 ⊢
    by_cases ht : timerExpired now s = true
    · rw [if_pos ht] at h1 ⊢
      rw [h1]
    · rw [if_neg ht] at h1 ⊢
      rw [h1]
      try dsimp only
      try rw [h2]
      try rw [if_neg ht]

/-- C7: reconciliation is idempotent — reapplying the recalculate
computation (with the event log and the single `now` read held fixed) to
its own output changes nothing. -/
theorem reconcile_idempotent (now : Int) (db : SessDB) :
    reconcile now (reconcile now db) = reconcile now db := by
  ext : 1
  case session =>
    ext : 1
    case durationSeconds => rfl
    case isPaused => rfl
    case pausedAt => rfl
    case totalPausedMs => rfl
    case startedAt => rfl
    case currentGameId =>
      show newCurrentGameId (reconcile now db).session (db.games.map updateGame) =
        newCurrentGameId db.session db.games
      exact newCurrentGameId_stable db.session (reconcile now db).session db.games rfl
    case totalGames =>
      show sessionTotalGames (db.games.map updateGame) = sessionTotalGames db.games
      exact sessionTotalGames_map db.games
    case highScore =>
      show sessionHighScoreOf (db.games.map updateGame) = sessionHighScoreOf db.games
      exact sessionHighScoreOf_map db.games
    case totalPoints =>
      show sessionTotalPoints (db.games.map updateGame) = sessionTotalPoints db.games
      exact sessionTotalPoints_map db.games
    case endedAt =>
      show newEndedAt now (reconcile now db).session (db.games.map updateGame) =
        newEndedAt now db.session db.games
      exact newEndedAt_stable now db.session (reconcile now db).session db.games
        (db.games.map updateGame) rfl rfl
  case games =>
    show (db.games.map updateGame).map updateGame = db.games.map updateGame
    rw [List.map_map]
    exact List.map_congr_left (fun x _ => updateGame_idem x)

end Scoreboard

namespace Scoreboard

/-- C8: when the session's `endedAt` is unset and the timer has expired at
reconciliation time, the back-filled `endedAt` is the reproducible
`startedAt + durationSeconds*1000 + totalPausedMs` when not paused (never
the wall-clock `now`); when paused it is the last processed game's computed
end timestamp if available, else the pause instant. -/
theorem session_backfill_spec (now : Int) (db : SessDB)
    (h0 : db.session.endedAt = none)
    (hexp : timerExpired now db.session = true) :
    (db.session.isPaused = false →
      (reconcile now db).session.endedAt =
        some (db.session.startedAt + db.session.durationSeconds * 1000 +
          db.session.totalPausedMs)) ∧
    (∀ p g v, db.session.isPaused = true → db.session.pausedAt = some p →
      (processedGames db.games).getLast? = some g → computedEndedAt g = some v →
      (reconcile now db).session.endedAt = some v) ∧
    (∀ p, db.session.isPaused = true → db.session.pausedAt = some p →
      (processedGames db.games).getLast? = none →
      (reconcile now db).session.endedAt = some p) ∧
    (∀ p g, db.session.isPaused = true → db.session.pausedAt = some p →
      (processedGames db.games).getLast? = some g → computedEndedAt g = none →
      (reconcile now db).session.endedAt = some p) := by
  have base : (reconcile now db).session.endedAt =
      some (match db.session.isPaused, db.session.pausedAt with
            | true, some p => pausedBackfill db.games p
            | _, _ => db.session.startedAt + db.session.durationSeconds * 1000 +
                db.session.totalPausedMs) := by
    show newEndedAt now db.session db.games = _
    unfold newEndedAt
    rw [h0]
    dsimp only
    rw [if_pos hexp]
  refine ⟨fun hp => ?_, fun p g v hp hpa hlast hc => ?_, fun p hp hpa hlast => ?_,
    fun p g hp hpa hlast hc => ?_⟩
  · rw [base, hp]
  · rw [base, hp, hpa]
    show some (pausedBackfill db.games p) = some v
    unfold pausedBackfill
    rw [hlast]
    dsimp only
    rw [hc]
  · rw [base, hp, hpa]
    show some (pausedBackfill db.games p) = some p
    unfold pausedBackfill
    rw [hlast]
  · rw [base, hp, hpa]
    show some (pausedBackfill db.games p) = some p
    unfold pausedBackfill
    rw [hlast]
    dsimp only
    rw [hc]

/-- A session idle past expiry, not paused, with no recorded games. -/
def w8session : SessionRec where
  durationSeconds := 600
  isPaused := false
  pausedAt := none
  totalPausedMs := 0
  currentGameId := none
  totalGames := 0
  highScore := 0
  totalPoints := 0
  startedAt := 0
  endedAt := none

def w8db : SessDB where
  session := w8session
  games := []

/-- C8 witness: Scenario E — reconciling at `now` one hour past expiry
back-fills the computed expiration time, not `now`. -/
theorem session_backfill_spec_witness :
    (reconcile 4200000 w8db).session.endedAt =
      some (w8session.startedAt + w8session.durationSeconds * 1000 +
        w8session.totalPausedMs) ∧
    w8session.startedAt + w8session.durationSeconds * 1000 +
        w8session.totalPausedMs ≠ 4200000 :=
  ⟨(session_backfill_spec 4200000 w8db rfl (by decide)).1 rfl, by decide⟩

end Scoreboard
